import Mathlib

/-!
Shallow embedding of the auth-core credential and session lifecycle engine.

The embedding follows the current generation of the source:
the authentication service (`register`, `verifyEmail`,
`resendVerificationEmail`, `login`, `refreshAccessToken`, `logout`),
the user model with hashed refresh-token sessions
(`addRefreshToken`, `removeRefreshToken`, `findRefreshToken`,
`cleanExpiredTokens`, `limitActiveTokens`, `comparePassword`,
`createUser`, `findByAccount`) and the token service
(`generateAccessToken`, `hashRefreshToken`, `verifyAccessToken`,
expiry helpers).

Modelling conventions:
- Times are milliseconds since the epoch, as `Nat`.
- MongoDB `findOne` over a collection is `List.find?` over the store,
  returning the first matching document.
- `save` on a document persists it back into the store keyed by `_id`.
- The external cryptographic primitives (bcrypt and SHA-256) are
  parameters of the development, collected in a `Crypto` record; the
  external JWT library is modelled by an explicit token record together
  with a key-pairing relation.
- Randomness (fresh refresh tokens, fresh verification tokens) enters as
  explicit arguments, and the mail collaborator as a per-attempt outcome
  function.
-/

namespace AuthCore

/-- The `toLowerCase()` of the source, character by character (identical
to `String.toLower`, but stated so that it reduces inside the kernel). -/
def lowercase (s : String) : String :=
  ⟨s.data.map Char.toLower⟩

/-- External cryptographic primitives used by the engine: bcrypt password
hashing/comparison and the SHA-256 digest used by the token service. -/
structure Crypto where
  bcryptHash : String → String
  bcryptCompare : String → String → Bool
  sha256 : String → String

/-- One entry of the `refreshTokens` array of the user schema: the SHA-256
hash of an issued refresh token with its metadata. -/
structure IRefreshToken where
  tokenHash : String
  createdAt : Nat
  expiresAt : Nat
  lastUsedAt : Option Nat := none
  deviceInfo : Option String := none
  ipAddress : Option String := none
  isRevoked : Bool := false
  deriving Repr, DecidableEq

/-- A user document of the `User` model. The MongoDB `_id` is a `Nat`. -/
structure IUser where
  id : Nat
  email : String
  username : String
  passwordHash : String
  isVerified : Bool := false
  verificationToken : Option String := none
  verificationTokenExpires : Option Nat := none
  refreshTokens : List IRefreshToken := []
  deriving Repr, DecidableEq

namespace IUser

/-- Instance method `comparePassword`: bcrypt comparison of the plaintext
password with the stored hash. -/
def comparePassword (c : Crypto) (u : IUser) (password : String) : Bool :=
  c.bcryptCompare password u.passwordHash

/-- Instance method `addRefreshToken`: pushes a new entry with the given
token hash, expiry, device info and address; `createdAt` is the current
time and `isRevoked` starts false. -/
def addRefreshToken (u : IUser) (tokenHash : String) (expiresAt : Nat)
    (now : Nat) (deviceInfo ipAddress : Option String) : IUser :=
  { u with
    refreshTokens := u.refreshTokens ++
      [{ tokenHash := tokenHash
         createdAt := now
         expiresAt := expiresAt
         deviceInfo := deviceInfo
         ipAddress := ipAddress
         isRevoked := false }] }

/-- Instance method `removeRefreshToken`: keeps exactly the entries whose
stored hash differs from the given one. -/
def removeRefreshToken (u : IUser) (tokenHash : String) : IUser :=
  { u with refreshTokens := u.refreshTokens.filter (fun rt => rt.tokenHash != tokenHash) }

/-- Instance method `findRefreshToken`: first entry with the given hash. -/
def findRefreshToken (u : IUser) (tokenHash : String) : Option IRefreshToken :=
  u.refreshTokens.find? (fun rt => rt.tokenHash == tokenHash)

/-- Instance method `cleanExpiredTokens`: keeps entries that are strictly
unexpired and not revoked. -/
def cleanExpiredTokens (u : IUser) (now : Nat) : IUser :=
  { u with
    refreshTokens := u.refreshTokens.filter (fun rt => decide (now < rt.expiresAt) && !rt.isRevoked) }

/-- Instance method `limitActiveTokens`: when strictly more than
`maxTokens` entries are present, sorts them by creation time descending
(a stable sort, as the JS array sort) and keeps the newest `maxTokens`. -/
def limitActiveTokens (u : IUser) (maxTokens : Nat) : IUser :=
  if maxTokens < u.refreshTokens.length then
    { u with
      refreshTokens :=
        (u.refreshTokens.mergeSort (fun a b => decide (b.createdAt ≤ a.createdAt))).take maxTokens }
  else u

end IUser

/-- The persistent account collection. -/
abbrev Store := List IUser

/-- Mongoose `findOne` keyed on the lowercased email. -/
def findByEmail (store : Store) (email : String) : Option IUser :=
  store.find? (fun u => u.email == lowercase email)

/-- Mongoose `findOne` keyed on the username. -/
def findByUsername (store : Store) (username : String) : Option IUser :=
  store.find? (fun u => u.username == username)

/-- Static method `findByAccount`: first user whose email equals the
lowercased account or whose username equals the account. -/
def findByAccount (store : Store) (account : String) : Option IUser :=
  store.find? (fun u => u.email == lowercase account || u.username == account)

/-- The `findOne` of the verification flow: first user whose pending
verification token matches and whose expiry lies strictly in the future. -/
def findByVerificationToken (store : Store) (token : String) (now : Nat) : Option IUser :=
  store.find? (fun u => u.verificationToken == some token &&
    (match u.verificationTokenExpires with
     | some e => decide (now < e)
     | none => false))

/-- The `findOne` keyed on a stored refresh-token hash. -/
def findByRefreshTokenHash (store : Store) (tokenHash : String) : Option IUser :=
  store.find? (fun u => u.refreshTokens.any (fun rt => rt.tokenHash == tokenHash))

/-- Persisting a mutated document: replaces every stored document carrying
the same `_id`. -/
def saveUser (store : Store) (u : IUser) : Store :=
  store.map (fun v => if v.id == u.id then u else v)

/-- `findByIdAndDelete`: removes the document with the given `_id`. -/
def deleteById (store : Store) (uid : Nat) : Store :=
  store.filter (fun v => v.id != uid)

/-- Largest `_id` present in the store. -/
def maxId (store : Store) : Nat :=
  (store.map IUser.id).foldr max 0

/-- The generated `_id` for a freshly created document. -/
def nextId (store : Store) : Nat :=
  maxId store + 1

/-- JWT claims payload carried by an access token. -/
structure Claims where
  userId : String
  email : String
  username : String
  deriving Repr, DecidableEq

/-- A produced JWT as observed by the verifier: payload, temporal claims,
issuer, audience, the signing key that produced the signature, and whether
the token parses as a JWT at all. -/
structure SignedToken where
  payload : Claims
  iat : Nat
  exp : Nat
  iss : String
  aud : String
  sigKey : String
  wellFormed : Bool := true
  deriving Repr, DecidableEq

/-- The JWT configuration: RS256 key pair, issuer `authCore`, audience
`authCore-api`, 15-minute access tokens and 7-day refresh tokens. -/
structure JwtConfig where
  privateKey : String
  publicKey : String
  issuer : String := "authCore"
  audience : String := "authCore-api"
  accessTokenExpireMs : Nat := 900000
  refreshTokenExpireMs : Nat := 604800000

/-- Token service `generateAccessToken`: signs the user id, email and
username with the private key, stamping issued-at, expiry, issuer and
audience from the configuration. -/
def generateAccessToken (cfg : JwtConfig) (u : IUser) (now : Nat) : SignedToken :=
  { payload := { userId := toString u.id, email := u.email, username := u.username }
    iat := now
    exp := now + cfg.accessTokenExpireMs
    iss := cfg.issuer
    aud := cfg.audience
    sigKey := cfg.privateKey
    wellFormed := true }

/-- Token service `hashRefreshToken`: the SHA-256 digest of the raw token. -/
def hashRefreshToken (c : Crypto) (token : String) : String :=
  c.sha256 token

/-- Token service `getRefreshTokenExpiry`. -/
def getRefreshTokenExpiry (cfg : JwtConfig) (now : Nat) : Nat :=
  now + cfg.refreshTokenExpireMs

/-- Token service `getVerificationTokenExpiry`: 24 hours. -/
def getVerificationTokenExpiry (now : Nat) : Nat :=
  now + 86400000

/-- Failure categories of the external JWT verification call. -/
inductive JwtError where
  | malformed
  | badSignature
  | expired
  | audienceMismatch
  | issuerMismatch
  deriving Repr, DecidableEq

/-- The external `jwt.verify` call with the public key and the configured
algorithm, issuer and audience: parses the token, checks the signature
against the key pairing, then expiry, then audience and issuer.
`pairs priv pub` states that `pub` is the verification key of `priv`. -/
def jwtVerify (pairs : String → String → Bool) (cfg : JwtConfig)
    (tok : SignedToken) (now : Nat) : Except JwtError Claims :=
  if tok.wellFormed = false then .error .malformed
  else if pairs tok.sigKey cfg.publicKey = false then .error .badSignature
  else if tok.exp ≤ now then .error .expired
  else if tok.aud != cfg.audience then .error .audienceMismatch
  else if tok.iss != cfg.issuer then .error .issuerMismatch
  else .ok tok.payload

/-- Token service `verifyAccessToken`: wraps `jwt.verify` in a try/catch
that returns the decoded payload on success and `null` on any failure. -/
def verifyAccessToken (pairs : String → String → Bool) (cfg : JwtConfig)
    (tok : SignedToken) (now : Nat) : Option Claims :=
  (jwtVerify pairs cfg tok now).toOption

/-- The error taxonomy raised by the authentication service, following the
`ErrorFactory` codes actually thrown by each path. -/
inductive AuthError where
  | conflictEmail
  | conflictUsername
  | emailSendFailed
  | internalError
  | verificationTokenExpired
  | invalidCredentials
  | emailNotVerified
  | refreshTokenInvalid
  deriving Repr, DecidableEq

/-- Successful login payload: the signed access token, the raw refresh
token echoed back once, the 900-second expiry and the user id. -/
structure LoginOk where
  accessToken : SignedToken
  refreshToken : String
  expiresIn : Nat
  userId : Nat
  deriving Repr, DecidableEq

/-- Successful rotation payload. -/
structure RefreshOk where
  accessToken : SignedToken
  refreshToken : String
  expiresIn : Nat
  deriving Repr, DecidableEq

/-- Service `register`: email pre-check, username pre-check, user creation
with bcrypt-hashed password and a fresh verification ticket, then mail
delivery with three bounded attempts; if every attempt fails the created
user is rolled back by `findByIdAndDelete` and the call fails with the
delivery-failure error. `sendOk i` is the outcome of delivery attempt `i`. -/
def register (c : Crypto) (store : Store) (email username password : String)
    (freshVerificationToken : String) (sendOk : Nat → Bool) (now : Nat) :
    Except AuthError Nat × Store :=
  if (findByEmail store email).isSome then (.error .conflictEmail, store)
  else if (findByUsername store username).isSome then (.error .conflictUsername, store)
  else
    let uid := nextId store
    let user : IUser :=
      { id := uid
        email := lowercase email
        username := username
        passwordHash := c.bcryptHash password
        isVerified := false
        verificationToken := some freshVerificationToken
        verificationTokenExpires := some (getVerificationTokenExpiry now)
        refreshTokens := [] }
    let created := store ++ [user]
    let emailSent := sendOk 1 || sendOk 2 || sendOk 3
    if emailSent then (.ok uid, created)
    else (.error .emailSendFailed, deleteById created uid)

/-- Service `verifyEmail`: finds the user whose pending unexpired ticket
matches, marks it verified and clears the ticket; otherwise fails with the
generic invalid-or-expired error. -/
def verifyEmail (store : Store) (token : String) (now : Nat) :
    Except AuthError (String × String) × Store :=
  match findByVerificationToken store token now with
  | none => (.error .verificationTokenExpired, store)
  | some u =>
    let u2 : IUser :=
      { u with
        isVerified := true
        verificationToken := none
        verificationTokenExpires := none }
    (.ok (u.email, u.username), saveUser store u2)

/-- The uniform anti-enumeration message returned by the resend flow. -/
def resendUniformMessage : String :=
  "如果该邮箱已注册，验证邮件将发送到您的邮箱"

/-- Service `resendVerificationEmail`: silently acknowledges unknown and
already-verified emails; only for an existing unverified account does it
mint a fresh ticket, persist it and attempt delivery, and a delivery
failure is swallowed. Returns the response, the new store, and whether a
delivery was attempted. -/
def resendVerificationEmail (store : Store) (email : String)
    (freshVerificationToken : String) (sendOk : Bool) (now : Nat) :
    (Bool × String) × Store × Bool :=
  match findByEmail store email with
  | none => ((true, resendUniformMessage), store, false)
  | some u =>
    if u.isVerified then ((true, resendUniformMessage), store, false)
    else
      let u2 : IUser :=
        { u with
          verificationToken := some freshVerificationToken
          verificationTokenExpires := some (getVerificationTokenExpiry now) }
      ((true, resendUniformMessage), saveUser store u2, true)

/-- Service `login`: account lookup, unconditional password comparison,
verification gate, password gate, expired-session purge, session cap,
token issuance and session insert. The third component counts how many
bcrypt password comparisons the call performed. -/
def login (c : Crypto) (cfg : JwtConfig) (store : Store)
    (account password : String) (freshRefreshToken : String)
    (deviceInfo ipAddress : Option String) (now : Nat) :
    Except AuthError LoginOk × Store × Nat :=
  match findByAccount store account with
  | none => (.error .invalidCredentials, store, 0)
  | some u =>
    let isPasswordValid := IUser.comparePassword c u password
    if u.isVerified = false then (.error .emailNotVerified, store, 1)
    else if isPasswordValid = false then (.error .invalidCredentials, store, 1)
    else
      let u1 := IUser.cleanExpiredTokens u now
      let u2 := IUser.limitActiveTokens u1 5
      let accessToken := generateAccessToken cfg u now
      let refreshTokenHash := hashRefreshToken c freshRefreshToken
      let refreshTokenExpiry := getRefreshTokenExpiry cfg now
      let u3 := IUser.addRefreshToken u2 refreshTokenHash refreshTokenExpiry now deviceInfo ipAddress
      (.ok { accessToken := accessToken
             refreshToken := freshRefreshToken
             expiresIn := 900
             userId := u.id },
       saveUser store u3, 1)

/-- Service `refreshAccessToken` (rotation): hashes the presented raw
token, locates the owning user and the session record, rejects revoked and
expired sessions, then removes the matched session, mints a fresh one from
the supplied fresh raw token, purges expired entries and persists. -/
def refreshAccessToken (c : Crypto) (cfg : JwtConfig) (store : Store)
    (refreshToken : String) (freshRefreshToken : String)
    (deviceInfo ipAddress : Option String) (now : Nat) :
    Except AuthError RefreshOk × Store :=
  let tokenHash := hashRefreshToken c refreshToken
  match findByRefreshTokenHash store tokenHash with
  | none => (.error .refreshTokenInvalid, store)
  | some u =>
    match IUser.findRefreshToken u tokenHash with
    | none => (.error .refreshTokenInvalid, store)
    | some tokenData =>
      if tokenData.isRevoked then (.error .refreshTokenInvalid, store)
      else if tokenData.expiresAt < now then
        (.error .refreshTokenInvalid, saveUser store (IUser.removeRefreshToken u tokenHash))
      else
        let u1 := IUser.removeRefreshToken u tokenHash
        let newAccessToken := generateAccessToken cfg u now
        let newHash := hashRefreshToken c freshRefreshToken
        let newExpiry := getRefreshTokenExpiry cfg now
        let dev2 := match deviceInfo with
          | some d => some d
          | none => tokenData.deviceInfo
        let ip2 := match ipAddress with
          | some i => some i
          | none => tokenData.ipAddress
        let u2 := IUser.addRefreshToken u1 newHash newExpiry now dev2 ip2
        let u3 := IUser.cleanExpiredTokens u2 now
        (.ok { accessToken := newAccessToken
               refreshToken := freshRefreshToken
               expiresIn := 900 },
         saveUser store u3)

/-- Service `logout`: with a raw refresh token, removes the matching
session of the owning user; with a user id, clears all sessions of that
user; always acknowledges success. -/
def logout (c : Crypto) (store : Store)
    (refreshToken : Option String) (userId : Option Nat) :
    (Bool × String) × Store :=
  match refreshToken with
  | some t =>
    let tokenHash := hashRefreshToken c t
    match findByRefreshTokenHash store tokenHash with
    | some u => ((true, "登出成功"), saveUser store (IUser.removeRefreshToken u tokenHash))
    | none => ((true, "登出成功"), store)
  | none =>
    match userId with
    | some uid =>
      match store.find? (fun v => v.id == uid) with
      | some u => ((true, "登出成功"), saveUser store { u with refreshTokens := [] })
      | none => ((true, "登出成功"), store)
    | none => ((true, "登出成功"), store)

/-- Sessions of a user that are live at `now`: strictly unexpired and not
revoked, the notion used by `cleanExpiredTokens`. -/
def liveSessionCount (u : IUser) (now : Nat) : Nat :=
  (u.refreshTokens.filter (fun rt => decide (now < rt.expiresAt) && !rt.isRevoked)).length

/-- The stored hashes of one user's sessions. -/
def sessionHashes (u : IUser) : List String :=
  u.refreshTokens.map IRefreshToken.tokenHash

/-- Whether a user holds a session with the given stored hash. -/
def hasSessionHash (u : IUser) (h : String) : Bool :=
  u.refreshTokens.any (fun rt => rt.tokenHash == h)

/-- All refresh-token values persisted anywhere in the store. -/
def storedHashes (s : Store) : List String :=
  (s.map sessionHashes).flatten

/-- A concrete instantiation of the cryptographic primitives, used to run
the engine on closed inputs: tagging makes the functions injective and
keeps digests disjoint from raw values, as SHA-256 hex digests are
disjoint from the 128-character raw tokens in the source. -/
def demoCrypto : Crypto where
  bcryptHash := fun p => "B#" ++ p
  bcryptCompare := fun p h => h == "B#" ++ p
  sha256 := fun t => "H#" ++ t

/-- A concrete JWT configuration. -/
def demoCfg : JwtConfig where
  privateKey := "priv"
  publicKey := "pub"

/-- The concrete key pairing of `demoCfg`. -/
def demoPairs : String → String → Bool :=
  fun priv pub => priv == "priv" && pub == "pub"

/-- A concrete verified account with no sessions. -/
def demoUser : IUser where
  id := 1
  email := "a@x.com"
  username := "alice"
  passwordHash := "B#pw"
  isVerified := true

/-- A concrete unverified account holding a pending verification ticket. -/
def demoUnverified : IUser where
  id := 1
  email := "a@x.com"
  username := "alice"
  passwordHash := "B#pw"
  isVerified := false
  verificationToken := some "V"
  verificationTokenExpires := some 100

/-- Concrete claims payload. -/
def demoClaims : Claims where
  userId := "1"
  email := "a@x.com"
  username := "alice"

/-- A syntactically valid, correctly signed token that is past expiry at
time 10. -/
def tokExpired : SignedToken where
  payload := demoClaims
  iat := 0
  exp := 5
  iss := "authCore"
  aud := "authCore-api"
  sigKey := "priv"
  wellFormed := true

/-- A token that does not parse as a JWT. -/
def tokMalformed : SignedToken where
  payload := demoClaims
  iat := 0
  exp := 100
  iss := "authCore"
  aud := "authCore-api"
  sigKey := "priv"
  wellFormed := false

/-- An unexpired token signed by a key that does not pair with the
configured public key. -/
def tokBadSig : SignedToken where
  payload := demoClaims
  iat := 0
  exp := 100
  iss := "authCore"
  aud := "authCore-api"
  sigKey := "evil"
  wellFormed := true

/-- A live session for device 1 (raw token t1 under `demoCrypto`). -/
def sess1 : IRefreshToken where
  tokenHash := "H#t1"
  createdAt := 1
  expiresAt := 100

/-- A live session for device 2 (raw token t2 under `demoCrypto`). -/
def sess2 : IRefreshToken where
  tokenHash := "H#t2"
  createdAt := 2
  expiresAt := 100

/-- The demo account logged in from two devices. -/
def demoTwoDevices : IUser :=
  { demoUser with refreshTokens := [sess1, sess2] }

/-- The store reached from a fresh verified account by `n` sequential
logins from distinct devices at times 1..n, with raw refresh tokens
r1..rn. -/
def afterLogins : Nat → Store
  | 0 => [demoUser]
  | n + 1 =>
    (login demoCrypto demoCfg (afterLogins n) "alice" "pw"
      ("r" ++ toString (n + 1)) (some ("d" ++ toString (n + 1))) none (n + 1)).2.1

section Lemmas

lemma mem_removeRefreshToken {u : IUser} {h : String} {rt : IRefreshToken}
    (hm : rt ∈ (IUser.removeRefreshToken u h).refreshTokens) :
    rt ∈ u.refreshTokens ∧ rt.tokenHash ≠ h := by
  simp only [IUser.removeRefreshToken, List.mem_filter, bne_iff_ne, ne_eq] at hm
  exact ⟨hm.1, hm.2⟩

lemma mem_cleanExpiredTokens {u : IUser} {now : Nat} {rt : IRefreshToken}
    (hm : rt ∈ (IUser.cleanExpiredTokens u now).refreshTokens) :
    rt ∈ u.refreshTokens := by
  simp only [IUser.cleanExpiredTokens, List.mem_filter] at hm
  exact hm.1

lemma mem_addRefreshToken {u : IUser} {nh : String} {e now : Nat}
    {d i : Option String} {rt : IRefreshToken}
    (hm : rt ∈ (IUser.addRefreshToken u nh e now d i).refreshTokens) :
    rt ∈ u.refreshTokens ∨ rt.tokenHash = nh := by
  simp only [IUser.addRefreshToken, List.mem_append, List.mem_singleton] at hm
  cases hm with
  | inl hmem => exact Or.inl hmem
  | inr heq => exact Or.inr (by rw [heq])

lemma mem_limitActiveTokens {u : IUser} {m : Nat} {rt : IRefreshToken}
    (hm : rt ∈ (IUser.limitActiveTokens u m).refreshTokens) :
    rt ∈ u.refreshTokens := by
  simp only [IUser.limitActiveTokens] at hm
  split at hm
  · exact List.mem_mergeSort.mp (List.mem_of_mem_take hm)
  · exact hm

lemma hasSessionHash_iff {u : IUser} {h : String} :
    hasSessionHash u h = true ↔ ∃ rt ∈ u.refreshTokens, rt.tokenHash = h := by
  simp [hasSessionHash, List.any_eq_true]

lemma find?_filter_of_imp {α : Type} (l : List α) (p q : α → Bool)
    (himp : ∀ a, q a = true → p a = true) :
    (l.filter p).find? q = l.find? q := by
  induction l with
  | nil => rfl
  | cons a l ih =>
    rw [List.filter_cons]
    by_cases hq : q a = true
    · have hp := himp a hq
      rw [if_pos hp, List.find?_cons, List.find?_cons, hq]
    · have hq2 : q a = false := by
        cases hqa : q a
        · rfl
        · exact absurd hqa hq
      by_cases hp : p a = true
      · rw [if_pos hp, List.find?_cons, List.find?_cons, hq2]
        exact ih
      · have hp2 : p a = false := by
          cases hpa : p a
          · rfl
          · exact absurd hpa hp
        rw [if_neg hp, List.find?_cons, hq2]
        exact ih

lemma id_le_maxId {s : Store} {v : IUser} (hv : v ∈ s) : v.id ≤ maxId s := by
  induction s with
  | nil => cases hv
  | cons a l ih =>
    simp only [maxId, List.map_cons, List.foldr_cons] at *
    cases hv with
    | head => exact le_max_left _ _
    | tail _ hmem => exact le_trans (ih hmem) (le_max_right _ _)

lemma mem_saveUser {s : Store} {u v2 : IUser} (hm : v2 ∈ saveUser s u) :
    v2 = u ∨ (v2 ∈ s ∧ v2.id ≠ u.id) := by
  simp only [saveUser, List.mem_map] at hm
  obtain ⟨v, hv, heq⟩ := hm
  by_cases hid : (v.id == u.id) = true
  · rw [if_pos hid] at heq
    exact Or.inl heq.symm
  · rw [if_neg hid] at heq
    refine Or.inr ⟨heq ▸ hv, ?_⟩
    rw [← heq]
    exact fun hc => hid (beq_iff_eq.mpr hc)

lemma self_mem_saveUser {s : Store} {u v : IUser} (hv : v ∈ s)
    (hid : v.id = u.id) : u ∈ saveUser s u := by
  simp only [saveUser, List.mem_map]
  exact ⟨v, hv, by rw [if_pos (beq_iff_eq.mpr hid)]⟩

lemma mem_sessionHashes {u : IUser} {x : String} :
    x ∈ sessionHashes u ↔ ∃ rt ∈ u.refreshTokens, rt.tokenHash = x := by
  simp [sessionHashes, List.mem_map]

lemma sessionHashes_mem_storedHashes {s : Store} {u : IUser} (hu : u ∈ s)
    {x : String} (hx : x ∈ sessionHashes u) : x ∈ storedHashes s := by
  simp only [storedHashes, List.mem_flatten]
  exact ⟨sessionHashes u, List.mem_map.mpr ⟨u, hu, rfl⟩, hx⟩

lemma storedHashes_saveUser_sub {s : Store} {u2 : IUser} {x : String}
    (hx : x ∈ storedHashes (saveUser s u2)) :
    x ∈ storedHashes s ∨ x ∈ sessionHashes u2 := by
  simp only [storedHashes, List.mem_flatten, List.mem_map] at hx
  obtain ⟨L, ⟨v2, hv2, hL⟩, hxL⟩ := hx
  rcases mem_saveUser hv2 with heq | ⟨hvs, _⟩
  · right
    rw [← heq, hL]
    exact hxL
  · left
    exact sessionHashes_mem_storedHashes hvs (hL ▸ hxL)

lemma hasSessionHash_rotated_false {u : IUser} {h nh : String} {e now2 : Nat}
    {d i : Option String} (hneq : nh ≠ h) :
    hasSessionHash
      (IUser.cleanExpiredTokens
        (IUser.addRefreshToken (IUser.removeRefreshToken u h) nh e now2 d i) now2) h
      = false := by
  rw [Bool.eq_false_iff]
  intro hc
  simp only [hasSessionHash] at hc
  obtain ⟨rt, hrtmem, hbeq⟩ := List.any_eq_true.mp hc
  have hrth : rt.tokenHash = h := beq_iff_eq.mp hbeq
  have h1 := mem_cleanExpiredTokens hrtmem
  rcases mem_addRefreshToken h1 with h2 | h2
  · exact absurd hrth (mem_removeRefreshToken h2).2
  · exact hneq (h2.symm.trans hrth)

lemma deleteById_append_fresh {s : Store} {newU : IUser}
    (h : ∀ v ∈ s, v.id ≠ newU.id) :
    deleteById (s ++ [newU]) newU.id = s := by
  simp only [deleteById, List.filter_append]
  have h1 : s.filter (fun v => v.id != newU.id) = s :=
    List.filter_eq_self.mpr (fun v hv => bne_iff_ne.mpr (h v hv))
  have h2 : [newU].filter (fun v => v.id != newU.id) = [] := by simp
  rw [h1, h2, List.append_nil]

end Lemmas

/-- C6: for every account found by identifier during login, the bcrypt
password comparison is computed exactly once, before any branch on the
verification state returns a failure: whatever the combination of
`isVerified` and password correctness, the login call performs one
comparison. -/
theorem login_compares_password_before_verification_gate
    (c : Crypto) (cfg : JwtConfig) (s : Store) (account password fresh : String)
    (dev ip : Option String) (now : Nat) (u : IUser)
    (hfind : findByAccount s account = some u) :
    (login c cfg s account password fresh dev ip now).2.2 = 1 := by
  simp only [login, hfind]
  split
  · rfl
  · split
    · rfl
    · rfl

/-- Witness for C6: a concrete unverified account; the login fails at the
verification gate yet the password comparison was still performed. -/
theorem login_compares_password_before_verification_gate_witness :
    findByAccount [demoUnverified] "alice" = some demoUnverified ∧
    (login demoCrypto demoCfg [demoUnverified] "alice" "pw" "r1" none none 5).2.2 = 1 :=
  ⟨by decide,
   login_compares_password_before_verification_gate demoCrypto demoCfg
     [demoUnverified] "alice" "pw" "r1" none none 5 demoUnverified (by decide)⟩

/-- C7, counterexample: on an identifier matching no account, login fails
immediately with zero password-hash comparisons, refuting the claim that
the absent-account path performs a comparison against a dummy hash. -/
theorem absent_account_skips_password_compare_cex :
    findByAccount ([] : Store) "ghost" = none ∧
    ¬ 1 ≤ (login demoCrypto demoCfg [] "ghost" "pw" "r1" none none 0).2.2 := by
  decide

/-- C7, amended: for every identifier matching no stored account, login
fails with `InvalidCredentials` without performing any password-hash
comparison — the absent-account path does not consume the comparison work
of the present-account path. -/
theorem login_absent_account_fails_without_compare
    (c : Crypto) (cfg : JwtConfig) (s : Store) (account password fresh : String)
    (dev ip : Option String) (now : Nat)
    (hfind : findByAccount s account = none) :
    login c cfg s account password fresh dev ip now = (.error .invalidCredentials, s, 0) := by
  simp [login, hfind]

/-- Witness for the amended C7 at a concrete input. -/
theorem login_absent_account_fails_without_compare_witness :
    findByAccount ([] : Store) "ghost" = none ∧
    login demoCrypto demoCfg [] "ghost" "pw" "r1" none none 0 =
      (.error .invalidCredentials, [], 0) :=
  ⟨by decide,
   login_absent_account_fails_without_compare demoCrypto demoCfg [] "ghost" "pw"
     "r1" none none 0 (by decide)⟩

/-- C8, counterexample: three tokens failing verification for the three
distinct reasons — expiry, malformation, bad signature — all produce the
identical result `none` from `verifyAccessToken`: the function's result
does not distinguish the failure categories. -/
theorem verifyAccessToken_uniform_failure_cex :
    jwtVerify demoPairs demoCfg tokExpired 10 = .error .expired ∧
    jwtVerify demoPairs demoCfg tokMalformed 10 = .error .malformed ∧
    jwtVerify demoPairs demoCfg tokBadSig 10 = .error .badSignature ∧
    verifyAccessToken demoPairs demoCfg tokExpired 10 =
      verifyAccessToken demoPairs demoCfg tokMalformed 10 ∧
    verifyAccessToken demoPairs demoCfg tokBadSig 10 =
      verifyAccessToken demoPairs demoCfg tokExpired 10 :=
  ⟨rfl, rfl, rfl, rfl, rfl⟩

/-- C8, amended: `verifyAccessToken` returns the token's claims exactly
when the token is well-formed, its signature was produced by the private
key pairing with the configured public key, it is strictly unexpired, and
it carries the configured audience and issuer; on any failing check it
returns `none` (without distinguishing the failure category), and it is a
pure function of the token, key material and clock — it consults no
persistent storage. -/
theorem verifyAccessToken_accepts_iff
    (pairs : String → String → Bool) (cfg : JwtConfig) (tok : SignedToken) (now : Nat) :
    (∀ cl, verifyAccessToken pairs cfg tok now = some cl →
      cl = tok.payload ∧ tok.wellFormed = true ∧
      pairs tok.sigKey cfg.publicKey = true ∧ now < tok.exp ∧
      tok.aud = cfg.audience ∧ tok.iss = cfg.issuer) ∧
    (tok.wellFormed = true → pairs tok.sigKey cfg.publicKey = true →
      now < tok.exp → tok.aud = cfg.audience → tok.iss = cfg.issuer →
      verifyAccessToken pairs cfg tok now = some tok.payload) := by
  constructor
  · intro cl hcl
    simp only [verifyAccessToken, jwtVerify] at hcl
    split at hcl
    · simp [Except.toOption] at hcl
    · split at hcl
      · simp [Except.toOption] at hcl
      · split at hcl
        · simp [Except.toOption] at hcl
        · split at hcl
          · simp [Except.toOption] at hcl
          · split at hcl
            · simp [Except.toOption] at hcl
            · simp only [Except.toOption, Option.some.injEq] at hcl
              rename_i hwf hsig hexp haud hiss
              exact ⟨hcl.symm, by simpa using hwf, by simpa using hsig,
                lt_of_not_le hexp, by simpa using haud, by simpa using hiss⟩
  · intro h1 h2 h3 h4 h5
    have hexp : ¬ tok.exp ≤ now := not_le.mpr h3
    simp [verifyAccessToken, jwtVerify, h1, h2, h4, h5, hexp, Except.toOption]

/-- Witness for the amended C8: a concrete well-formed, correctly signed,
unexpired token with the configured issuer and audience is accepted. -/
theorem verifyAccessToken_accepts_iff_witness :
    verifyAccessToken demoPairs demoCfg tokBadSig 10 = none ∧
    verifyAccessToken demoPairs demoCfg
      { tokBadSig with sigKey := "priv" } 10 =
      some demoClaims :=
  ⟨rfl,
   (verifyAccessToken_accepts_iff demoPairs demoCfg
      { tokBadSig with sigKey := "priv" } 10).2
     (by decide) (by decide) (by decide) (by decide) (by decide)⟩

/-- C10: the resend-verification flow returns the identical uniform
success message for every input; its behaviour does not depend on the
notifier outcome; when no delivery is attempted the store is unchanged;
and a delivery is attempted only for an existing unverified account, in
which case exactly that account receives the fresh ticket. -/
theorem resend_verification_uniform_response
    (s : Store) (email VT : String) (sendOk : Bool) (now : Nat) :
    (resendVerificationEmail s email VT sendOk now).1 = (true, resendUniformMessage) ∧
    resendVerificationEmail s email VT sendOk now =
      resendVerificationEmail s email VT true now ∧
    ((resendVerificationEmail s email VT sendOk now).2.2 = false →
      (resendVerificationEmail s email VT sendOk now).2.1 = s) ∧
    ((resendVerificationEmail s email VT sendOk now).2.2 = true →
      ∃ u ∈ s, u.email = lowercase email ∧ u.isVerified = false ∧
        ∃ v ∈ (resendVerificationEmail s email VT sendOk now).2.1,
          v.id = u.id ∧ v.verificationToken = some VT ∧
          v.verificationTokenExpires = some (getVerificationTokenExpiry now)) := by
  refine ⟨?_, rfl, ?_, ?_⟩
  · simp only [resendVerificationEmail]
    cases hf : findByEmail s email with
    | none => rfl
    | some u =>
      cases hv : u.isVerified with
      | true => simp [hv]
      | false => simp [hv]
  · simp only [resendVerificationEmail]
    cases hf : findByEmail s email with
    | none => intro _; rfl
    | some u =>
      cases hv : u.isVerified with
      | true => simp [hv]
      | false => simp [hv]
  · simp only [resendVerificationEmail]
    cases hf : findByEmail s email with
    | none => intro hc; cases hc
    | some u =>
      have hmem : u ∈ s := List.mem_of_find?_eq_some hf
      have hf2 : List.find? (fun v => v.email == lowercase email) s = some u := hf
      have hpred := List.find?_some hf2
      have hemail : u.email = lowercase email := by simpa using hpred
      cases hv : u.isVerified with
      | true => simp [hv]
      | false =>
        simp only [hv, Bool.false_eq_true, if_false]
        intro _
        refine ⟨u, hmem, hemail, hv, ?_⟩
        exact ⟨_, self_mem_saveUser hmem rfl, rfl, rfl, rfl⟩

/-- C4: a verification ticket is consumable exactly once. If an account
holds the pending unexpired ticket `V` (and `V` is pending on no other
account, as tickets are random UUIDs), then the first `verify(V)` succeeds,
the persisted account is verified with its ticket cleared, and every
subsequent `verify(V)` on the resulting state fails with the generic
invalid-or-expired error. -/
theorem verification_ticket_single_use
    (s : Store) (V : String) (now : Nat) (u : IUser)
    (hfind : findByVerificationToken s V now = some u)
    (huniq : ∀ v ∈ s, v.verificationToken = some V → v.id = u.id) :
    (verifyEmail s V now).1 = .ok (u.email, u.username) ∧
    (∀ v ∈ (verifyEmail s V now).2, v.id = u.id →
      v.isVerified = true ∧ v.verificationToken = none ∧
      v.verificationTokenExpires = none) ∧
    (∀ now2, verifyEmail (verifyEmail s V now).2 V now2 =
      (.error .verificationTokenExpired, (verifyEmail s V now).2)) := by
  have hstep : verifyEmail s V now =
      (.ok (u.email, u.username),
        saveUser s
          { u with
            isVerified := true
            verificationToken := none
            verificationTokenExpires := none }) := by
    simp [verifyEmail, hfind]
  refine ⟨by rw [hstep], ?_, ?_⟩
  · intro v hv hvid
    rw [hstep] at hv
    rcases mem_saveUser hv with heq | ⟨_, hne⟩
    · rw [heq]
      exact ⟨rfl, rfl, rfl⟩
    · exact absurd hvid hne
  · intro now2
    have hs2 : (verifyEmail s V now).2 =
        saveUser s
          { u with
            isVerified := true
            verificationToken := none
            verificationTokenExpires := none } := by
      rw [hstep]
    have hnone2 : findByVerificationToken
        (saveUser s
          { u with
            isVerified := true
            verificationToken := none
            verificationTokenExpires := none }) V now2 = none := by
      refine List.find?_eq_none.mpr ?_
      intro v hv hpred
      rcases mem_saveUser hv with heq | ⟨hvs, hne⟩
      · rw [heq] at hpred
        simp at hpred
      · have htok : v.verificationToken = some V := by
          simp only [Bool.and_eq_true, beq_iff_eq] at hpred
          exact hpred.1
        exact hne (huniq v hvs htok)
    rw [hs2]
    simp [verifyEmail, hnone2]

/-- Witness for C4: the demo unverified account with pending ticket V at
time 5; verifying once succeeds, verifying again fails. -/
theorem verification_ticket_single_use_witness :
    (verifyEmail [demoUnverified] "V" 5).1 =
      .ok (demoUnverified.email, demoUnverified.username) ∧
    verifyEmail (verifyEmail [demoUnverified] "V" 5).2 "V" 6 =
      (.error .verificationTokenExpired, (verifyEmail [demoUnverified] "V" 5).2) :=
  ⟨(verification_ticket_single_use [demoUnverified] "V" 5 demoUnverified
      (by decide) (by decide)).1,
   (verification_ticket_single_use [demoUnverified] "V" 5 demoUnverified
      (by decide) (by decide)).2.2 6⟩

/-- C5: when both uniqueness pre-checks pass and every one of the three
bounded notifier attempts fails, registration rolls the created account
back, leaving the store exactly as before — in particular no account with
the requested email or username remains — and fails with the
delivery-failure error; conversely a successful registration implies some
delivery attempt succeeded. -/
theorem register_rollback_on_delivery_failure
    (c : Crypto) (s : Store) (email username password VT : String)
    (sendOk : Nat → Bool) (now : Nat)
    (hemail : findByEmail s email = none)
    (husername : findByUsername s username = none) :
    (sendOk 1 = false → sendOk 2 = false → sendOk 3 = false →
      register c s email username password VT sendOk now = (.error .emailSendFailed, s) ∧
      ∀ v ∈ (register c s email username password VT sendOk now).2,
        v.email ≠ lowercase email ∧ v.username ≠ username) ∧
    (∀ uid s2, register c s email username password VT sendOk now = (.ok uid, s2) →
      sendOk 1 = true ∨ sendOk 2 = true ∨ sendOk 3 = true) := by
  constructor
  · intro h1 h2 h3
    have hroll : register c s email username password VT sendOk now =
        (.error .emailSendFailed, s) := by
      have hfresh : ∀ v ∈ s, v.id ≠ nextId s := by
        intro v hv
        have := id_le_maxId hv
        simp only [nextId]
        omega
      simp only [register, hemail, husername, Option.isSome_none,
        Bool.false_eq_true, if_false, h1, h2, h3, Bool.or_false, if_false]
      rw [deleteById_append_fresh hfresh]
    refine ⟨hroll, ?_⟩
    intro v hv
    rw [hroll] at hv
    have hvemail : ¬ (v.email == lowercase email) = true := by
      have := List.find?_eq_none.mp hemail v hv
      simpa using this
    have hvuser : ¬ (v.username == username) = true := by
      have := List.find?_eq_none.mp husername v hv
      simpa using this
    exact ⟨by simpa using hvemail, by simpa using hvuser⟩
  · intro uid s2 heq
    by_cases hsend : (sendOk 1 || sendOk 2 || sendOk 3) = true
    · simp only [Bool.or_eq_true] at hsend
      tauto
    · exfalso
      have hsend2 : (sendOk 1 || sendOk 2 || sendOk 3) = false := by
        cases hb : (sendOk 1 || sendOk 2 || sendOk 3)
        · rfl
        · exact absurd hb hsend
      simp only [register, hemail, husername, Option.isSome_none,
        Bool.false_eq_true, if_false, hsend2] at heq
      exact absurd (congrArg Prod.fst heq) (by simp)

/-- Witness for C5: registering into the empty store with an
always-failing notifier rolls back to the empty store and fails; with a
third-attempt success it succeeds. -/
theorem register_rollback_on_delivery_failure_witness :
    register demoCrypto [] "b@x.com" "bob" "pw" "VT" (fun _ => false) 0 =
      (.error .emailSendFailed, []) ∧
    (register demoCrypto [] "b@x.com" "bob" "pw" "VT" (fun i => i == 3) 0).1 =
      .ok 1 :=
  ⟨(register_rollback_on_delivery_failure demoCrypto [] "b@x.com" "bob" "pw" "VT"
      (fun _ => false) 0 (by decide) (by decide)).1 rfl rfl rfl |>.1,
   rfl⟩

/-- C2, evaluation at the failing input: six sequential logins from
distinct devices on a fresh verified account leave six simultaneously
live (non-expired, non-revoked) sessions — not five — and the first
login's refresh token still rotates successfully afterwards. The session
cap runs before the new session is inserted and only trims when the count
already exceeds the cap, so a login can leave `maxSessions + 1` live
sessions, contradicting the documented five-device limit. -/
theorem session_cap_exceeded_after_six_logins :
    (afterLogins 6).map (fun u => liveSessionCount u 7) = [6] ∧
    (refreshAccessToken demoCrypto demoCfg (afterLogins 6) "r1" "f1" none none 7).1.isOk
      = true := by
  decide

/-- C9: logging out with the raw refresh token of one session removes
exactly the sessions whose stored hash matches that token's hash. Every
other account is untouched, the owning account keeps its email, username,
password hash, verification state and ticket, every session with a
different hash survives, and any surviving live session still rotates
successfully (provided its hash is held by no other account, as hashes
are digests of high-entropy tokens). -/
theorem logout_removes_only_matching_session
    (c : Crypto) (cfg : JwtConfig) (s : Store) (rawT : String) (u : IUser)
    (hfind : findByRefreshTokenHash s (hashRefreshToken c rawT) = some u) :
    (logout c s (some rawT) none).1 = (true, "登出成功") ∧
    (∀ v ∈ s, v.id ≠ u.id → v ∈ (logout c s (some rawT) none).2) ∧
    (∀ v ∈ (logout c s (some rawT) none).2, v.id = u.id →
      v.email = u.email ∧ v.username = u.username ∧
      v.passwordHash = u.passwordHash ∧ v.isVerified = u.isVerified ∧
      v.verificationToken = u.verificationToken ∧
      v.refreshTokens = u.refreshTokens.filter
        (fun rt => rt.tokenHash != hashRefreshToken c rawT)) ∧
    (∀ Tj fresh dev ip now2 tdj,
      hashRefreshToken c Tj ≠ hashRefreshToken c rawT →
      (∀ v ∈ s, hasSessionHash v (hashRefreshToken c Tj) = true → v.id = u.id) →
      IUser.findRefreshToken u (hashRefreshToken c Tj) = some tdj →
      tdj.isRevoked = false →
      ¬ tdj.expiresAt < now2 →
      (refreshAccessToken c cfg (logout c s (some rawT) none).2
        Tj fresh dev ip now2).1.isOk = true) := by
  have hstep : logout c s (some rawT) none =
      ((true, "登出成功"),
        saveUser s (IUser.removeRefreshToken u (hashRefreshToken c rawT))) := by
    simp [logout, hfind]
  have hmemu : u ∈ s := List.mem_of_find?_eq_some hfind
  refine ⟨by rw [hstep], ?_, ?_, ?_⟩
  · intro v hv hne
    rw [hstep]
    simp only [saveUser, List.mem_map]
    refine ⟨v, hv, ?_⟩
    rw [if_neg]
    intro hc
    exact hne (beq_iff_eq.mp hc)
  · intro v hv hvid
    rw [hstep] at hv
    rcases mem_saveUser hv with heq | ⟨_, hne⟩
    · rw [heq]
      exact ⟨rfl, rfl, rfl, rfl, rfl, rfl⟩
    · exact absurd hvid hne
  · intro Tj fresh dev ip now2 tdj hneq huniqj htdj hrev hexp
    rw [hstep]
    have htdjmem : tdj ∈ u.refreshTokens := List.mem_of_find?_eq_some htdj
    have htdjhash : tdj.tokenHash = hashRefreshToken c Tj := by
      have := List.find?_some htdj
      simpa using this
    have hu2 : (IUser.removeRefreshToken u (hashRefreshToken c rawT)).refreshTokens =
        u.refreshTokens.filter (fun rt => rt.tokenHash != hashRefreshToken c rawT) := rfl
    have htdjmem2 : tdj ∈
        (IUser.removeRefreshToken u (hashRefreshToken c rawT)).refreshTokens := by
      rw [hu2]
      refine List.mem_filter.mpr ⟨htdjmem, ?_⟩
      rw [htdjhash]
      exact bne_iff_ne.mpr hneq
    have hmemu2 : IUser.removeRefreshToken u (hashRefreshToken c rawT) ∈
        saveUser s (IUser.removeRefreshToken u (hashRefreshToken c rawT)) :=
      self_mem_saveUser hmemu rfl
    have hpred2 : ((IUser.removeRefreshToken u (hashRefreshToken c rawT)).refreshTokens.any
        (fun rt => rt.tokenHash == hashRefreshToken c Tj)) = true :=
      List.any_eq_true.mpr ⟨tdj, htdjmem2, beq_iff_eq.mpr htdjhash⟩
    have hfind2 : findByRefreshTokenHash
        (saveUser s (IUser.removeRefreshToken u (hashRefreshToken c rawT)))
        (hashRefreshToken c Tj) =
        some (IUser.removeRefreshToken u (hashRefreshToken c rawT)) := by
      cases hfd : findByRefreshTokenHash
          (saveUser s (IUser.removeRefreshToken u (hashRefreshToken c rawT)))
          (hashRefreshToken c Tj) with
      | none =>
        exact absurd hpred2 (List.find?_eq_none.mp hfd _ hmemu2)
      | some x =>
        have hxmem : x ∈ saveUser s (IUser.removeRefreshToken u (hashRefreshToken c rawT)) :=
          List.mem_of_find?_eq_some hfd
        have hxpred := List.find?_some hfd
        rcases mem_saveUser hxmem with heq | ⟨hxs, hxne⟩
        · rw [heq]
        · exfalso
          exact hxne (huniqj x hxs hxpred)
    have hfind3 : IUser.findRefreshToken
        (IUser.removeRefreshToken u (hashRefreshToken c rawT))
        (hashRefreshToken c Tj) = some tdj := by
      show List.find? _ _ = some tdj
      rw [hu2]
      rw [find?_filter_of_imp]
      · exact htdj
      · intro a ha
        have : a.tokenHash = hashRefreshToken c Tj := beq_iff_eq.mp ha
        rw [this]
        exact bne_iff_ne.mpr hneq
    simp only [refreshAccessToken, hfind2, hfind3, hrev, Bool.false_eq_true,
      if_false, if_neg hexp]
    rfl

/-- Witness for C9: the demo account is logged in from two devices;
logging out device 2 leaves device 1's session, which still rotates. -/
theorem logout_removes_only_matching_session_witness :
    (logout demoCrypto [demoTwoDevices] (some "t2") none).1 = (true, "登出成功") ∧
    (refreshAccessToken demoCrypto demoCfg
      (logout demoCrypto [demoTwoDevices] (some "t2") none).2
      "t1" "f1" none none 10).1.isOk = true :=
  ⟨(logout_removes_only_matching_session demoCrypto demoCfg [demoTwoDevices]
      "t2" demoTwoDevices (by decide)).1,
   (logout_removes_only_matching_session demoCrypto demoCfg [demoTwoDevices]
      "t2" demoTwoDevices (by decide)).2.2.2 "t1" "f1" none none 10 sess1
      (by decide) (by decide) (by decide) rfl (by decide)⟩

/-- C1: rotation gives replay protection. If some account holds a live
(unrevoked, unexpired) session whose stored hash matches raw token `T`
(and no other account holds that hash — hashes are digests of
high-entropy tokens — and the freshly minted token hashes differently),
then `rotate(T)` succeeds, the resulting state holds no session with
`T`'s hash anywhere, and every second `rotate(T)` on that state — at any
later time, with any fresh material — fails with the invalid-token error
and leaves the state unchanged: the old raw token is permanently
unusable after its single successful use. -/
theorem rotate_replay_protection
    (c : Crypto) (cfg : JwtConfig) (s : Store) (T fresh1 : String)
    (dev ip : Option String) (now : Nat) (u : IUser) (td : IRefreshToken)
    (hfind : findByRefreshTokenHash s (hashRefreshToken c T) = some u)
    (htd : IUser.findRefreshToken u (hashRefreshToken c T) = some td)
    (hrev : td.isRevoked = false)
    (hexp : ¬ td.expiresAt < now)
    (hfresh : hashRefreshToken c fresh1 ≠ hashRefreshToken c T)
    (huniq : ∀ v ∈ s, hasSessionHash v (hashRefreshToken c T) = true → v.id = u.id) :
    (refreshAccessToken c cfg s T fresh1 dev ip now).1.isOk = true ∧
    (∀ v ∈ (refreshAccessToken c cfg s T fresh1 dev ip now).2,
      hasSessionHash v (hashRefreshToken c T) = false) ∧
    (∀ fresh2 dev2 ip2 now2,
      refreshAccessToken c cfg (refreshAccessToken c cfg s T fresh1 dev ip now).2
        T fresh2 dev2 ip2 now2 =
      (.error .refreshTokenInvalid,
        (refreshAccessToken c cfg s T fresh1 dev ip now).2)) := by
  have hclean : ∀ v ∈ (refreshAccessToken c cfg s T fresh1 dev ip now).2,
      hasSessionHash v (hashRefreshToken c T) = false := by
    intro v hv
    simp only [refreshAccessToken, hfind, htd, hrev, Bool.false_eq_true,
      if_false, if_neg hexp] at hv
    rcases mem_saveUser hv with heq | ⟨hvs, hvne⟩
    · rw [heq]
      exact hasSessionHash_rotated_false hfresh
    · cases hb : hasSessionHash v (hashRefreshToken c T) with
      | false => rfl
      | true =>
        exfalso
        exact hvne ((huniq v hvs hb).trans rfl)
  refine ⟨?_, hclean, ?_⟩
  · simp only [refreshAccessToken, hfind, htd, hrev, Bool.false_eq_true,
      if_false, if_neg hexp]
    rfl
  · intro fresh2 dev2 ip2 now2
    have hnone : findByRefreshTokenHash
        (refreshAccessToken c cfg s T fresh1 dev ip now).2
        (hashRefreshToken c T) = none := by
      refine List.find?_eq_none.mpr ?_
      intro v hv
      have := hclean v hv
      simp only [hasSessionHash] at this
      simp [this]
    generalize hg : (refreshAccessToken c cfg s T fresh1 dev ip now).2 = S2 at hnone ⊢
    simp only [refreshAccessToken, hnone]

/-- Witness for C1: rotating device 1's token on the two-device demo
account succeeds, and replaying the same raw token fails with the
invalid-token error. -/
theorem rotate_replay_protection_witness :
    (refreshAccessToken demoCrypto demoCfg [demoTwoDevices] "t1" "f1" none none 10).1.isOk
      = true ∧
    refreshAccessToken demoCrypto demoCfg
        (refreshAccessToken demoCrypto demoCfg [demoTwoDevices] "t1" "f1" none none 10).2
        "t1" "f2" none none 11 =
      (.error .refreshTokenInvalid,
        (refreshAccessToken demoCrypto demoCfg [demoTwoDevices] "t1" "f1" none none 10).2) :=
  ⟨(rotate_replay_protection demoCrypto demoCfg [demoTwoDevices] "t1" "f1"
      none none 10 demoTwoDevices sess1 (by decide) (by decide) rfl (by decide)
      (by decide) (by decide)).1,
   (rotate_replay_protection demoCrypto demoCfg [demoTwoDevices] "t1" "f1"
      none none 10 demoTwoDevices sess1 (by decide) (by decide) rfl (by decide)
      (by decide) (by decide)).2.2 "f2" none none 11⟩

/-- C3: the raw bearer secret is never persisted. Provided the fresh raw
token is not already some stored digest and differs from its own SHA-256
digest (raw tokens are 128 hex characters, digests 64), a successful
login or rotation returns that raw token to the caller once, every hash
it persists is either a previously stored digest or exactly the SHA-256
digest of the issued token, and the raw token itself appears nowhere in
the resulting store. -/
theorem raw_refresh_token_never_stored
    (c : Crypto) (cfg : JwtConfig) (s : Store) (fresh : String)
    (hno : fresh ∉ storedHashes s)
    (hneq : c.sha256 fresh ≠ fresh) :
    (∀ account password dev ip now r s2 n,
      login c cfg s account password fresh dev ip now = (.ok r, s2, n) →
      r.refreshToken = fresh ∧
      (∀ x ∈ storedHashes s2, x ∈ storedHashes s ∨ x = c.sha256 fresh) ∧
      fresh ∉ storedHashes s2) ∧
    (∀ T dev ip now r s2,
      refreshAccessToken c cfg s T fresh dev ip now = (.ok r, s2) →
      r.refreshToken = fresh ∧
      (∀ x ∈ storedHashes s2, x ∈ storedHashes s ∨ x = c.sha256 fresh) ∧
      fresh ∉ storedHashes s2) := by
  constructor
  · intro account password dev ip now r s2 n heq
    cases hfa : findByAccount s account with
    | none => simp [login, hfa] at heq
    | some u =>
      have hus : u ∈ s := List.mem_of_find?_eq_some hfa
      simp only [login, hfa] at heq
      split at heq
      · simp at heq
      · split at heq
        · simp at heq
        · simp only [Prod.mk.injEq, Except.ok.injEq] at heq
          obtain ⟨hok, hs2, -⟩ := heq
          have hsub : ∀ x ∈ storedHashes s2, x ∈ storedHashes s ∨ x = c.sha256 fresh := by
            intro x hx
            rw [← hs2] at hx
            rcases storedHashes_saveUser_sub hx with hleft | hright
            · exact Or.inl hleft
            · obtain ⟨rt, hrtmem, hrt⟩ := mem_sessionHashes.mp hright
              rcases mem_addRefreshToken hrtmem with hm | hm
              · left
                have hmu := mem_cleanExpiredTokens (mem_limitActiveTokens hm)
                exact sessionHashes_mem_storedHashes hus
                  (mem_sessionHashes.mpr ⟨rt, hmu, hrt⟩)
              · right
                exact (hrt.symm.trans hm : x = hashRefreshToken c fresh)
          refine ⟨by rw [← hok], hsub, ?_⟩
          intro hmem
          rcases hsub fresh hmem with hleft | hright
          · exact hno hleft
          · exact hneq hright.symm
  · intro T dev ip now r s2 heq
    cases hf1 : findByRefreshTokenHash s (hashRefreshToken c T) with
    | none => simp [refreshAccessToken, hf1] at heq
    | some u =>
      have hus : u ∈ s := List.mem_of_find?_eq_some hf1
      cases hf2 : IUser.findRefreshToken u (hashRefreshToken c T) with
      | none => simp [refreshAccessToken, hf1, hf2] at heq
      | some td =>
        simp only [refreshAccessToken, hf1, hf2] at heq
        split at heq
        · simp at heq
        · split at heq
          · simp at heq
          · simp only [Prod.mk.injEq, Except.ok.injEq] at heq
            obtain ⟨hok, hs2⟩ := heq
            have hsub : ∀ x ∈ storedHashes s2, x ∈ storedHashes s ∨ x = c.sha256 fresh := by
              intro x hx
              rw [← hs2] at hx
              rcases storedHashes_saveUser_sub hx with hleft | hright
              · exact Or.inl hleft
              · obtain ⟨rt, hrtmem, hrt⟩ := mem_sessionHashes.mp hright
                rcases mem_addRefreshToken (mem_cleanExpiredTokens hrtmem) with hm | hm
                · left
                  have hmu := (mem_removeRefreshToken hm).1
                  exact sessionHashes_mem_storedHashes hus
                    (mem_sessionHashes.mpr ⟨rt, hmu, hrt⟩)
                · right
                  exact (hrt.symm.trans hm : x = hashRefreshToken c fresh)
            refine ⟨by rw [← hok], hsub, ?_⟩
            intro hmem
            rcases hsub fresh hmem with hleft | hright
            · exact hno hleft
            · exact hneq hright.symm

/-- Witness for C3: a login on the demo account with fresh raw token f3
returns f3 and stores only its digest, never f3 itself. -/
theorem raw_refresh_token_never_stored_witness :
    (login demoCrypto demoCfg [demoTwoDevices] "alice" "pw" "f3" none none 10).1 =
      .ok { accessToken := generateAccessToken demoCfg demoTwoDevices 10
            refreshToken := "f3"
            expiresIn := 900
            userId := 1 } ∧
    "f3" ∉ storedHashes
      (login demoCrypto demoCfg [demoTwoDevices] "alice" "pw" "f3" none none 10).2.1 :=
  ⟨rfl,
   ((raw_refresh_token_never_stored demoCrypto demoCfg [demoTwoDevices] "f3"
       (by decide) (by decide)).1 "alice" "pw" none none 10 _ _ _ rfl).2.2⟩

/-- Witness for C10 at a concrete input: an unknown email is silently
acknowledged with the uniform message and the store is untouched. -/
theorem resend_verification_uniform_response_witness :
    (resendVerificationEmail [demoUser] "ghost@x.com" "VT" false 0).1 =
      (true, resendUniformMessage) ∧
    (resendVerificationEmail [demoUser] "ghost@x.com" "VT" false 0).2.1 = [demoUser] :=
  ⟨(resend_verification_uniform_response [demoUser] "ghost@x.com" "VT" false 0).1,
   (resend_verification_uniform_response [demoUser] "ghost@x.com" "VT" false 0).2.2.1
     (by decide)⟩

end AuthCore
